import Mathlib

/-!
Shallow embedding of the lavka-attendance Upstream Session Broker.

Sources embedded:
  * backend/markin_endpoint_v1/crud.py    (extract_info, process_marking_session)
  * backend/markin_endpoint_v1/views.py   (continue_marking)
  * backend/database.py                   (totp_sessions table operations)
  * backend/attendance.py                 (self_approve, get_us_info, try_auto_2fa,
                                           send_2fa_notification, complete_2fa_login)
  * backend/tg_endpoint_v1/crud.py        (parse_totp_qr entry selection, is_mirea_totp)
  * backend/tg_endpoint_v1/views.py       (telegram_webhook photo branch)

Modelling conventions: machine time is Int seconds; the database is modelled
per user (every query in the source filters on tg_userid); Upstream HTTP и
Telegram I/O are oracles passed in as explicit values; Python exceptions are
Except values; Python regular expression classes \d and \w are modelled over
the character sets that the upstream data uses (ASCII digits, ASCII word
characters and the Cyrillic alphabet; Python would additionally accept other
Unicode categories, which never occur in the embedded patterns).
-/

namespace LavkaSpec

/-! ## Character classes used by extract_info (crud.py lines 57-113) -/

/-- Uppercase Cyrillic letter, the class [А-ЯЁ] of the group pattern. -/
def cyrUpper (c : Char) : Bool :=
  (0x410 ≤ c.toNat && c.toNat ≤ 0x42F) || c.toNat == 0x401

/-- Lowercase Cyrillic letter, the class [а-яё]. -/
def cyrLower (c : Char) : Bool :=
  (0x430 ≤ c.toNat && c.toNat ≤ 0x44F) || c.toNat == 0x451

/-- Python str.isupper on one character, over ASCII and Cyrillic. -/
def pyUpper (c : Char) : Bool :=
  c.isUpper || cyrUpper c

/-- Python regex class \w, over ASCII and Cyrillic. -/
def pyWordChar (c : Char) : Bool :=
  c.isAlphanum || c == '_' || cyrUpper c || cyrLower c

/-! ## List-of-characters string utilities (Python str methods) -/

/-- Python substring membership, needle in haystack: some suffix of the
haystack starts with the needle. -/
def containsSeq (needle : List Char) : List Char → Bool
  | [] => needle.isEmpty
  | c :: rest => needle.isPrefixOf (c :: rest) || containsSeq needle rest

/-- Python str.strip: drop whitespace from both ends. -/
def trimList (cs : List Char) : List Char :=
  ((cs.dropWhile Char.isWhitespace).reverse.dropWhile Char.isWhitespace).reverse

/-- Helper for Python str.split(sep): fuel-indexed scan; the fuel is always
set at least to the length of the scanned list, so the fuel-exhausted
branch is never reached on the actual calls. -/
def splitSepAux (sep : List Char) : Nat → List Char → List Char → List (List Char)
  | _, [], acc => [acc.reverse]
  | 0, cs, acc => [acc.reverse ++ cs]
  | fuel + 1, c :: rest, acc =>
    if sep.isPrefixOf (c :: rest) then
      acc.reverse :: splitSepAux sep fuel (List.drop (sep.length - 1) rest) []
    else
      splitSepAux sep fuel rest (c :: acc)

/-- Python text.split(sep) for a non-empty separator. -/
def splitSep (sep cs : List Char) : List (List Char) :=
  splitSepAux sep (cs.length + 1) cs []

/-- Python str.split() with no argument: whitespace-separated words,
empty words dropped. -/
def wsWords : List Char → List Char → List (List Char)
  | [], acc => if acc.isEmpty then [] else [acc.reverse]
  | c :: rest, acc =>
    if c.isWhitespace then
      if acc.isEmpty then wsWords rest [] else acc.reverse :: wsWords rest []
    else
      wsWords rest (c :: acc)

/-- Join words with single spaces; composed with wsWords this models
re.sub of a whitespace run by one space followed by str.strip. -/
def joinWords : List (List Char) → List Char
  | [] => []
  | [w] => w
  | w :: rest => w ++ ' ' :: joinWords rest

/-! ## The group regular expression of extract_info -/

/-- One position of re.search for the pattern [А-ЯЁ]{4}-\d{2}-\d{2} with \b
on both sides: the ten pattern characters start at index i and both
neighbours (when present) are not word characters. Out-of-range reads
return the NUL character, which belongs to no class. -/
def groupAt (cs : List Char) (i : Nat) : Bool :=
  cyrUpper (cs.getD i '\x00') && cyrUpper (cs.getD (i + 1) '\x00') &&
  cyrUpper (cs.getD (i + 2) '\x00') && cyrUpper (cs.getD (i + 3) '\x00') &&
  cs.getD (i + 4) '\x00' == '-' &&
  (cs.getD (i + 5) '\x00').isDigit && (cs.getD (i + 6) '\x00').isDigit &&
  cs.getD (i + 7) '\x00' == '-' &&
  (cs.getD (i + 8) '\x00').isDigit && (cs.getD (i + 9) '\x00').isDigit &&
  (i == 0 || !pyWordChar (cs.getD (i - 1) '\x00')) &&
  !pyWordChar (cs.getD (i + 10) '\x00')

/-- Leftmost-match scan of re.search, fuel-indexed so that it reduces by
iota in the kernel; the initial fuel length + 1 always suffices. -/
def searchGroupAux (cs : List Char) : Nat → Nat → Option Nat
  | 0, _ => none
  | fuel + 1, i =>
    if cs.length ≤ i then none
    else if groupAt cs i then some i
    else searchGroupAux cs fuel (i + 1)

/-- Index of the first match of the group pattern, as re.search returns it. -/
def searchGroupFrom (cs : List Char) : Option Nat :=
  searchGroupAux cs (cs.length + 1) 0

/-- re.match against ^[А-ЯЁ]{4}-\d{2}-\d{2}$: the whole token is one group
code (used to skip group tokens when collecting discipline candidates). -/
def groupExact (p : List Char) : Bool :=
  match p with
  | [a, b, c, d, e, f, g, h, i, j] =>
    cyrUpper a && cyrUpper b && cyrUpper c && cyrUpper d && e == '-' &&
    f.isDigit && g.isDigit && h == '-' && i.isDigit && j.isDigit
  | _ => false

/-! ## extract_info (crud.py lines 57-113) -/

/-- The Python dict returned by extract_info, with its two keys. -/
structure ExtractResult where
  group : String
  strok : String
deriving DecidableEq

/-- The token looks like a person name: one to three words, each starting
uppercase and shorter than 15 characters (crud.py lines 91-95). -/
def fioLike (p : List Char) : Bool :=
  let ws := wsWords p []
  decide (1 ≤ ws.length) && decide (ws.length ≤ 3) &&
  ws.all (fun w =>
    (match w with
     | [] => true
     | c :: _ => pyUpper c) && decide (w.length < 15))

/-- The continue-chain of the candidate loop: a token is skipped when it is
a group code, short, a season name, or person-name shaped. -/
def shouldSkip (p : List Char) : Bool :=
  groupExact p || decide (p.length ≤ 5) ||
  p == "Осень".data || p == "Весна".data || fioLike p

/-- Discipline candidates: split on the separator, strip each part, drop
the skipped ones. -/
def disciplineCands (cs : List Char) : List (List Char) :=
  ((splitSep " | ".data cs).map trimList).filter (fun p => !shouldSkip p)

/-- Python max(candidates, key=len): the first candidate of maximal
length (max replaces the current best only on a strictly larger key). -/
def maxByLen : List (List Char) → List Char
  | [] => []
  | h :: t => t.foldl (fun b p => if b.length < p.length then p else b) h

/-- The group component: the first match of the group pattern, else none. -/
def extractGroup (cs : List Char) : String :=
  match searchGroupFrom cs with
  | some i => ((cs.drop i).take 10).asString
  | none => "none"

/-- New-format discipline: the longest surviving token. -/
def extractDisciplineNew (cs : List Char) : String :=
  match disciplineCands cs with
  | [] => "none"
  | h :: t => (maxByLen (h :: t)).asString

/-- Old-format discipline: the text before the group match, reduced to
Cyrillic letters and whitespace, with whitespace runs collapsed. -/
def extractDisciplineOld (cs : List Char) : String :=
  let before :=
    match searchGroupFrom cs with
    | some i => cs.take i
    | none => cs
  let kept := before.filter (fun c => cyrUpper c || cyrLower c || c.isWhitespace)
  let collapsed := joinWords (wsWords kept [])
  if collapsed.isEmpty then "none" else collapsed.asString

/-- extract_info on a string input. -/
def extractInfo (text : String) : ExtractResult :=
  if text = "" then ⟨"none", "none"⟩
  else if (trimList text.data).length < 5 then ⟨"none", "none"⟩
  else if containsSeq " | ".data text.data then
    ⟨extractGroup text.data, extractDisciplineNew text.data⟩
  else
    ⟨extractGroup text.data, extractDisciplineOld text.data⟩

/-- extract_info on an optional input: Python None is falsy, so the
function returns the none/none record without touching the text. -/
def extractInfoOpt : Option String → ExtractResult
  | none => ⟨"none", "none"⟩
  | some s => extractInfo s

/-! ## The totp_sessions table (database.py lines 1359-1567), per user -/

/-- One row of totp_sessions for the modelled user. Time stamps are Int
seconds; last_notification_sent is the nullable notification stamp. -/
structure TotpRow where
  sessionCookies : String
  otpActionUrl : String
  credentialId : String
  userAgent : Option String
  source : String
  createdAt : Int
  expiresAt : Int
  lastNotificationSent : Option Int
  otpCredentials : Option String
deriving DecidableEq

/-- The users-table fields the broker reads for the modelled user. -/
structure UserRow where
  login : String
  hashedPassword : String
  userAgent : Option String
  totpSecret : Option String
  totpCredentialId : Option String
deriving DecidableEq

/-- The slice of the database the broker touches for one user: the users
row, the cookies row and the totp_sessions rows. -/
structure DBState where
  user : Option UserRow
  cookies : Option String
  totpSessions : List TotpRow
deriving DecidableEq

/-- The SQL predicate expires_at > NOW(). -/
def rowActive (now : Int) (r : TotpRow) : Bool :=
  decide (now < r.expiresAt)

/-- get_totp_session: the active row with the greatest created_at
(ORDER BY created_at DESC LIMIT 1 over non-expired rows). -/
def getTotpSession (s : DBState) (now : Int) : Option TotpRow :=
  (s.totpSessions.filter (rowActive now)).foldl
    (fun acc r =>
      match acc with
      | none => some r
      | some b => if b.createdAt < r.createdAt then some r else some b)
    none

/-- The preserved notification stamp of create_totp_session: the greatest
non-null last_notification_sent over the existing rows of the user
(ORDER BY last_notification_sent DESC LIMIT 1). -/
def latestNotification (rows : List TotpRow) : Option Int :=
  rows.foldl
    (fun acc r =>
      match r.lastNotificationSent with
      | none => acc
      | some t =>
        match acc with
        | none => some t
        | some b => if b < t then some t else some b)
    none

/-- create_totp_session: read the preserved stamp, delete the old rows of
the user, insert one fresh row expiring expires_minutes from now. -/
def createTotpSession (s : DBState) (now : Int)
    (sessionCookies otpActionUrl credentialId : String)
    (userAgent : Option String) (source : String)
    (expiresMinutes : Int) (otpCredentials : Option String) : DBState :=
  let old := latestNotification s.totpSessions
  { s with totpSessions :=
      [⟨sessionCookies, otpActionUrl, credentialId, userAgent, source,
        now, now + 60 * expiresMinutes, old, otpCredentials⟩] }

/-- update_totp_session: rotate cookies, url and credential on the
non-expired rows of the user. -/
def updateTotpSession (s : DBState) (now : Int)
    (sessionCookies otpActionUrl credentialId : String) : DBState :=
  { s with totpSessions := s.totpSessions.map (fun r =>
      if rowActive now r then
        { r with sessionCookies := sessionCookies,
                 otpActionUrl := otpActionUrl,
                 credentialId := credentialId }
      else r) }

/-- delete_totp_session: drop all rows of the user. -/
def deleteTotpSession (s : DBState) : DBState :=
  { s with totpSessions := [] }

/-- can_send_2fa_notification: true when there is no active row, or its
stamp is null, or strictly more than 24 hours have passed. -/
def canSendTwoFaNotification (s : DBState) (now : Int) : Bool :=
  match getTotpSession s now with
  | none => true
  | some r =>
    match r.lastNotificationSent with
    | none => true
    | some t => decide (86400 < now - t)

/-- mark_2fa_notification_sent: stamp the non-expired rows of the user. -/
def markTwoFaNotificationSent (s : DBState) (now : Int) : DBState :=
  { s with totpSessions := s.totpSessions.map (fun r =>
      if rowActive now r then { r with lastNotificationSent := some now } else r) }

/-- create_cookie: upsert the cookies row of the user. -/
def createCookie (s : DBState) (c : String) : DBState :=
  { s with cookies := some c }

/-- set_totp_credential_id on the users row. -/
def setTotpCredentialId (s : DBState) (credentialId : String) : DBState :=
  { s with user := s.user.map (fun u => { u with totpCredentialId := some credentialId }) }

/-! ## send_2fa_notification (attendance.py lines 93-135) -/

/-- send_2fa_notification: skip under the 24h limiter; otherwise post the
Telegram message (telegramOk is the transport oracle) and stamp the row;
any failure is caught and reported as false with the state unchanged. -/
def sendTwoFaNotification (s : DBState) (now : Int) (telegramOk : Bool) :
    Bool × DBState :=
  if canSendTwoFaNotification s now then
    if telegramOk then (true, markTwoFaNotificationSent s now) else (false, s)
  else (false, s)

/-! ## Upstream oracles and broker operations (attendance.py) -/

/-- The data of a TwoFactorRequired result from get_cookies.py. -/
structure TwoFactorData where
  sessionCookies : String
  otpActionUrl : String
  credentialId : String
  otpCredentials : Option String
deriving DecidableEq

/-- Outcome of one Keycloak exchange: fresh cookies, an OTP challenge, or
a raised exception. -/
inductive SsoOutcome where
  | success (cookies : String)
  | twoFactor (tf : TwoFactorData)
  | failure (msg : String)
deriving DecidableEq

/-- All Upstream and Telegram behaviour one broker operation can observe,
fixed in advance as an oracle. Except models a call that either returns
a body or raises with the given message. -/
structure Upstream where
  approveCached : Except String String
  meInfoCached : Except String String
  login : SsoOutcome
  submitAuto : String → SsoOutcome
  approveAfterAuto : Except String String
  meInfoAfterAuto : Except String String
  approveAfterLogin : Except String String
  meInfoAfterLogin : Except String String
  submitInteractive : SsoOutcome
  groupsResult : Except String (List String)
  telegramOk : Bool

/-- Python x or y over an optional string: the stored value wins unless it
is absent or empty. -/
def pyOrStr (a : Option String) (b : String) : String :=
  match a with
  | some s => if s = "" then b else s
  | none => b

/-- try_auto_2fa: with a stored seed, submit the derived code under the
saved credential (or the challenge default); a repeated challenge or any
exception yields none, success yields the fresh cookies. -/
def tryAutoTwoFa (s : DBState) (up : Upstream) (tf : TwoFactorData) : Option String :=
  match s.user with
  | none => none
  | some u =>
    match u.totpSecret with
    | none => none
    | some _ =>
      let credentialId := pyOrStr u.totpCredentialId tf.credentialId
      match up.submitAuto credentialId with
      | .success c => some c
      | .twoFactor _ => none
      | .failure _ => none

/-- What a broker operation surfaces to its caller. -/
inductive BrokerResult where
  | ok (value : String)
  | twoFactorRequired (source : String)
  | failure (msg : String)
deriving DecidableEq

/-- One finished broker operation: its surfaced result, the database
afterwards, whether get_cookies was invoked, and whether a 2FA Telegram
notification went out. -/
structure BrokerRun where
  result : BrokerResult
  db : DBState
  calledGetCookies : Bool
  sentNotification : Bool
deriving DecidableEq

/-- The 401 test of the except-branches: "401" in str(e). -/
def contains401 (e : String) : Bool :=
  containsSeq "401".data e.data

/-- The rebuild half of self_approve (attendance.py lines 382-426): load
the user, run get_cookies, dispatch on its outcome; 2FA first tries the
automatic path, then persists the challenge and notifies. -/
def selfApproveRefresh (s : DBState) (now : Int) (userAgent : Option String)
    (up : Upstream) : BrokerRun :=
  match s.user with
  | none => ⟨.failure "Неправильный логин или пароль: Пользователь не найден", s, false, false⟩
  | some _ =>
    match up.login with
    | .success c =>
      let s1 := createCookie s c
      match up.approveAfterLogin with
      | .ok v => ⟨.ok v, s1, true, false⟩
      | .error e => ⟨.failure ("Неправильный логин или пароль: " ++ e), s1, true, false⟩
    | .twoFactor tf =>
      match tryAutoTwoFa s up tf with
      | some c =>
        let s1 := createCookie s c
        match up.approveAfterAuto with
        | .ok v => ⟨.ok v, s1, true, false⟩
        | .error e => ⟨.failure ("Неправильный логин или пароль: " ++ e), s1, true, false⟩
      | none =>
        let s1 := createTotpSession s now tf.sessionCookies tf.otpActionUrl
          tf.credentialId userAgent "refresh" 5 tf.otpCredentials
        let sent := sendTwoFaNotification s1 now up.telegramOk
        ⟨.twoFactorRequired "refresh", sent.2, true, sent.1⟩
    | .failure e => ⟨.failure ("Неправильный логин или пароль: " ++ e), s, true, false⟩

/-- self_approve (attendance.py lines 354-431): use cached cookies when
present, rebuild on a 401 or a cache miss, re-raise other errors wrapped
by the outer handler. -/
def selfApprove (s : DBState) (now : Int) (userAgent : Option String)
    (up : Upstream) : BrokerRun :=
  match s.cookies with
  | some _ =>
    match up.approveCached with
    | .ok v => ⟨.ok v, s, false, false⟩
    | .error e =>
      if contains401 e then selfApproveRefresh s now userAgent up
      else ⟨.failure ("Неправильный логин или пароль: " ++ e), s, false, false⟩
  | none => selfApproveRefresh s now userAgent up

/-- The give-up block of the 2FA path of get_us_info (attendance.py
lines 325-331): persist the challenge, notify only when notify_on_2fa was
requested, raise the 2FA error. -/
def getUsInfoPersist (sx : DBState) (now : Int) (userAgent : Option String)
    (notifyOnTwoFa : Bool) (up : Upstream) (tf : TwoFactorData) : BrokerRun :=
  let s1 := createTotpSession sx now tf.sessionCookies tf.otpActionUrl
    tf.credentialId userAgent "refresh" 5 tf.otpCredentials
  let sent := if notifyOnTwoFa then sendTwoFaNotification s1 now up.telegramOk
              else (false, s1)
  ⟨.twoFactorRequired "refresh", sent.2, true, sent.1⟩

/-- The rebuild half of get_us_info (attendance.py lines 294-346). The
liveness check is info[0].strip() being non-empty; on the automatic 2FA
path an empty probe still persists the challenge; notifications fire only
when notify_on_2fa was requested. -/
def getUsInfoRefresh (s : DBState) (now : Int) (userAgent : Option String)
    (notifyOnTwoFa : Bool) (up : Upstream) : BrokerRun :=
  match s.user with
  | none => ⟨.failure "Ошибка в get_us_info: Пользователь не найден", s, false, false⟩
  | some _ =>
    match up.login with
    | .success c =>
      let s1 := createCookie s c
      match up.meInfoAfterLogin with
      | .ok info =>
        if (trimList info.data).isEmpty then
          ⟨.failure "Ошибка в get_us_info: Ошибка обновления cookies: Неправильный логин или пароль", s1, true, false⟩
        else ⟨.ok info, s1, true, false⟩
      | .error e =>
        ⟨.failure ("Ошибка в get_us_info: Ошибка обновления cookies: " ++ e), s1, true, false⟩
    | .twoFactor tf =>
      match tryAutoTwoFa s up tf with
      | some c =>
        let s1 := createCookie s c
        match up.meInfoAfterAuto with
        | .ok info =>
          if (trimList info.data).isEmpty then
            getUsInfoPersist s1 now userAgent notifyOnTwoFa up tf
          else ⟨.ok info, s1, true, false⟩
        | .error e =>
          ⟨.failure ("Ошибка в get_us_info: Ошибка обновления cookies: " ++ e), s1, true, false⟩
      | none => getUsInfoPersist s now userAgent notifyOnTwoFa up tf
    | .failure e =>
      ⟨.failure ("Ошибка в get_us_info: Ошибка обновления cookies: " ++ e), s, true, false⟩

/-- get_us_info (attendance.py lines 254-351): probe with cached cookies;
any exception or an empty name falls through to the rebuild path. -/
def getUsInfo (s : DBState) (now : Int) (userAgent : Option String)
    (notifyOnTwoFa : Bool) (up : Upstream) : BrokerRun :=
  match s.cookies with
  | some _ =>
    match up.meInfoCached with
    | .ok info =>
      if (trimList info.data).isEmpty then
        getUsInfoRefresh s now userAgent notifyOnTwoFa up
      else ⟨.ok info, s, false, false⟩
    | .error _ => getUsInfoRefresh s now userAgent notifyOnTwoFa up
  | none => getUsInfoRefresh s now userAgent notifyOnTwoFa up

/-! ## complete_2fa_login (attendance.py lines 175-251) -/

/-- What complete_2fa_login surfaces: the wrong-code TwoFactorRequired
echo, the group list on success, or a raised exception. -/
inductive TwoFaOutcome where
  | wrongCode (tf : TwoFactorData)
  | completedGroups (groups : List String)
  | failure (msg : String)
deriving DecidableEq

/-- complete_2fa_login: load the pending session; on a repeated challenge
rotate the row but keep the stored credential choice; on success cache
cookies, persist the confirmed credential when a seed exists, drop the
row, and fetch groups only for a login-origin session. -/
def completeTwoFaLogin (s : DBState) (now : Int) (up : Upstream) :
    TwoFaOutcome × DBState :=
  match getTotpSession s now with
  | none => (.failure "Сессия 2FA не найдена или истекла. Начните авторизацию заново.", s)
  | some ts =>
    match up.submitInteractive with
    | .twoFactor tf =>
      let s1 := updateTotpSession s now tf.sessionCookies tf.otpActionUrl ts.credentialId
      (.wrongCode tf, s1)
    | .success c =>
      let s1 := createCookie s c
      let s2 := if (s1.user.bind (fun u => u.totpSecret)).isSome then
                  setTotpCredentialId s1 ts.credentialId
                else s1
      let s3 := deleteTotpSession s2
      if ts.source = "login" then
        match up.groupsResult with
        | .ok gs => (.completedGroups gs, s3)
        | .error _ => (.completedGroups [], s3)
      else (.completedGroups [], s3)
    | .failure e => (.failure e, s)

/-! ## The mass-marking engine (markin_endpoint_v1/crud.py and views.py) -/

/-- One element of session["user_results"]: target id, display name,
success flag and the optional error text. -/
structure UserResult where
  tgId : Int
  fio : String
  success : Bool
  err : Option String
deriving DecidableEq

/-- The marking_sessions dict entry built by start_mass_marking. -/
structure MarkingSession where
  ownerId : Int
  token : String
  status : String
  total : Nat
  processed : Nat
  successful : Nat
  failed : Nat
  results : List (Int × ExtractResult)
  userResults : List UserResult
  remaining : List Int
  completed : Bool
  error : Option String
  discipline : String
  group : String
deriving DecidableEq

/-- fio_map.get(user_id, default): the display name used in results. -/
def fioOf (fioMap : Int → Option String) (uid : Int) : String :=
  match fioMap uid with
  | some f => f
  | none => "ID: " ++ toString uid

/-- The set-once group and discipline writes after a successful approve
(crud.py lines 274-282): each is written only while still empty and only
from a non-none parse component. -/
def setDiscipline (s : MarkingSession) (pr : ExtractResult) : MarkingSession :=
  if s.discipline = "" ∧ pr.strok ≠ "none" then { s with discipline := pr.strok } else s

/-- The two set-once writes in order: group first, then discipline. -/
def setMeta (s : MarkingSession) (pr : ExtractResult) : MarkingSession :=
  setDiscipline
    (if s.group = "" ∧ pr.group ≠ "none" then { s with group := pr.group } else s) pr

/-- One iteration of the per-target loop of process_marking_session
(crud.py lines 207-307). The outcome oracle is the result of
mark_single_user: a raw response body, or the message of the exception it
raised (a 2FA refusal arrives here as an exception message too). -/
def markStep (fioMap : Int → Option String) (s : MarkingSession) (uid : Int)
    (outcome : Except String String) : MarkingSession :=
  match outcome with
  | .error e =>
    { s with failed := s.failed + 1, processed := s.processed + 1,
             userResults := s.userResults ++ [⟨uid, fioOf fioMap uid, false, some e⟩],
             remaining := s.remaining.erase uid }
  | .ok raw =>
    let pr := extractInfo raw
    if pr.group = "none" ∧ pr.strok = "none" then
      { s with failed := s.failed + 1, processed := s.processed + 1,
               userResults := s.userResults ++
                 [⟨uid, fioOf fioMap uid, false, some "QR код истёк или неверный ответ"⟩],
               remaining := s.remaining.erase uid }
    else
      setMeta
        { s with successful := s.successful + 1, processed := s.processed + 1,
                 results := s.results ++ [(uid, pr)],
                 userResults := s.userResults ++ [⟨uid, fioOf fioMap uid, true, none⟩],
                 remaining := s.remaining.erase uid }
        pr

/-- The record markStep appends for a target, as a function of the
oracles alone (the appended entry does not depend on the session). -/
def entryFor (fioMap : Int → Option String) (oracle : Int → Except String String)
    (uid : Int) : UserResult :=
  match oracle uid with
  | .error e => ⟨uid, fioOf fioMap uid, false, some e⟩
  | .ok raw =>
    let pr := extractInfo raw
    if pr.group = "none" ∧ pr.strok = "none" then
      ⟨uid, fioOf fioMap uid, false, some "QR код истёк или неверный ответ"⟩
    else ⟨uid, fioOf fioMap uid, true, none⟩

/-- The whole per-target loop over a copied target list. The waves of
three concurrent tasks mutate the session sequentially in submission
order in the source, so the loop is a fold. -/
def runTargets (fioMap : Int → Option String) (oracle : Int → Except String String)
    (s : MarkingSession) (targets : List Int) : MarkingSession :=
  targets.foldl (fun st uid => markStep fioMap st uid (oracle uid)) s

/-- process_marking_session (crud.py lines 147-369). infra is the oracle
for a failure outside the per-target loop (store outage); the returned
list is the set of target ids the finishing notification broadcast is
sent to (send_marking_notifications skips an empty set and an unknown
discipline). -/
def processMarkingSession (sess : MarkingSession)
    (oracle : Int → Except String String) (fioMap : Int → Option String)
    (infra : Option String) : MarkingSession × List Int :=
  let s1 := { sess with status := "processing" }
  match infra with
  | some e => ({ s1 with status := "error", error := some e }, [])
  | none =>
    let final0 := runTargets fioMap oracle s1 s1.remaining
    let final :=
      if final0.remaining.isEmpty then
        { final0 with status := "completed", completed := true }
      else { final0 with status := "partially_completed" }
    let succIds := (final.userResults.filter (fun r => r.success)).map (fun r => r.tgId)
    let notified := if succIds.isEmpty then []
                    else if final.discipline = "" then [] else succIds
    (final, notified)

/-- continue_marking (views.py lines 181-255): only the owner may resume;
the token is replaced, the status set to continuing, the error cleared,
and a fresh processing pass is launched over the current remaining set. -/
def continueMarking (sess : MarkingSession) (requesterId : Int) (newToken : String)
    (oracle : Int → Except String String) (fioMap : Int → Option String)
    (infra : Option String) : Except String (MarkingSession × List Int) :=
  if sess.ownerId ≠ requesterId then .error "Нет доступа к этой сессии отметки"
  else
    let s := { sess with token := newToken, status := "continuing", error := none }
    .ok (processMarkingSession s oracle fioMap infra)

/-! ## The bot bridge (tg_endpoint_v1/crud.py and views.py) -/

/-- Python str.lower on one character, over ASCII and Cyrillic. -/
def pyLowerChar (c : Char) : Char :=
  if c.toNat = 0x401 then Char.ofNat 0x451
  else if 0x410 ≤ c.toNat ∧ c.toNat ≤ 0x42F then Char.ofNat (c.toNat + 0x20)
  else c.toLower

/-- is_mirea_totp (crud.py lines 299-315): the issuer allow-list,
substring-matched case-insensitively; a falsy issuer never matches. -/
def isMireaTotp (issuer : String) : Bool :=
  if issuer = "" then false
  else
    let low := issuer.data.map pyLowerChar
    containsSeq "mirea".data low || containsSeq "rtu".data low ||
    containsSeq "мирэа".data low || containsSeq "рту".data low ||
    containsSeq "keycloak-edu".data low

/-- The inner search of parse_totp_qr over the decoded migration entries:
the first entry whose issuer matches the allow-list. -/
def findMirea : List (String × String) → Option (String × String)
  | [] => none
  | (sec, iss) :: rest => if isMireaTotp iss then some (sec, iss) else findMirea rest

/-- The wrong-issuer message of parse_totp_qr (crud.py line 272). -/
def wrongIssuerText (n : Nat) : String :=
  "Найдено " ++ toString n ++ " ключей, но MIREA среди них нет"

/-- Entry selection of parse_totp_qr over a decoded migration payload
(crud.py lines 252-272): a matching entry wins; a lone entry is passed
through regardless of issuer; several non-matching entries produce the
wrong-issuer message; an empty payload is skipped and the scan falls
through to the not-found return. -/
def selectMigrationEntry (entries : List (String × String)) :
    Option String × Option String :=
  match findMirea entries with
  | some e => (some e.1, some e.2)
  | none =>
    match entries with
    | [] => (none, none)
    | [e] => (some e.1, some e.2)
    | _ => (none, some (wrongIssuerText entries.length))

/-- Python truthiness of an optional string. -/
def optStrTruthy : Option String → Bool
  | none => false
  | some s => decide (s ≠ "")

/-- What the photo branch of telegram_webhook does with the parse result
(views.py lines 336-379). -/
inductive WebhookAction where
  | stored (secret : String)
  | wrongIssuerMsg (msg : String)
  | notMireaMsg
  | qrNotFoundMsg
deriving DecidableEq

/-- The decision chain of the photo branch: no secret reports either the
multi-key message or the generic not-found message; a secret with an
issuer outside the allow-list is rejected; only a matching issuer reaches
set_totp_secret. -/
def webhookPhotoAction (secret issuer : Option String) : WebhookAction :=
  if optStrTruthy secret then
    if isMireaTotp (issuer.getD "") then
      .stored (secret.getD "")
    else .notMireaMsg
  else
    match issuer with
    | some m =>
      if optStrTruthy (some m) && containsSeq "ключей".data m.data then
        .wrongIssuerMsg m
      else .qrNotFoundMsg
    | none => .qrNotFoundMsg

/-! ## Helper lemmas -/

/-- In the single-pending-row states the broker produces, get_totp_session
returns that row whenever it has not expired. -/
lemma getTotpSession_single (s : DBState) (now : Int) (r : TotpRow)
    (h : s.totpSessions = [r]) (ha : rowActive now r = true) :
    getTotpSession s now = some r := by
  simp [getTotpSession, h, List.filter, ha]

/-! ## C2 -/

/-- C2: create_totp_session replaces the pending row of a user but copies
the non-null last_notification_sent of the replaced row into the new row;
the stored stamp is the old value, not null and not the current time. -/
theorem claim2_replacement_preserves_notified
    (s : DBState) (now tZero : Int) (r : TotpRow)
    (sc url cid : String) (ua : Option String) (src : String)
    (em : Int) (oc : Option String)
    (h : s.totpSessions = [r]) (hn : r.lastNotificationSent = some tZero) :
    (createTotpSession s now sc url cid ua src em oc).totpSessions =
      [⟨sc, url, cid, ua, src, now, now + 60 * em, some tZero, oc⟩] := by
  simp [createTotpSession, latestNotification, h, hn]

/-- A pending row stamped at time 5, replaced at time 100: the fresh row
keeps stamp 5 (neither null nor 100). -/
theorem claim2_witness :
    (createTotpSession
        ⟨none, none, [⟨"sc", "u", "c1", none, "login", 0, 60, some 5, none⟩]⟩
        100 "sc2" "u2" "c2" none "refresh" 5 none).totpSessions =
      [⟨"sc2", "u2", "c2", none, "refresh", 100, 100 + 60 * 5, some 5, none⟩] :=
  claim2_replacement_preserves_notified _ 100 5 _ "sc2" "u2" "c2" none "refresh" 5 none
    rfl rfl

/-! ## C3 -/

/-- C3: send_2fa_notification sends only when the active pending row has
a null stamp or more than 24 hours have passed; a send stamps every
active row with the current time; within 24 hours of the stored stamp no
second message goes out; and a Telegram transport failure returns false
and leaves the store untouched. -/
theorem claim3_notification_limiter
    (s : DBState) (now : Int) (telegramOk : Bool) (r : TotpRow)
    (hrow : getTotpSession s now = some r) :
    ((sendTwoFaNotification s now telegramOk).1 = true →
      r.lastNotificationSent = none ∨
        ∃ t, r.lastNotificationSent = some t ∧ 86400 ≤ now - t) ∧
    ((sendTwoFaNotification s now telegramOk).1 = true →
      ∀ rr ∈ (sendTwoFaNotification s now telegramOk).2.totpSessions,
        rowActive now rr = true → rr.lastNotificationSent = some now) ∧
    (∀ t, r.lastNotificationSent = some t → now - t ≤ 86400 →
      (sendTwoFaNotification s now telegramOk).1 = false) ∧
    (telegramOk = false → sendTwoFaNotification s now telegramOk = (false, s)) := by
  refine ⟨?_, ?_, ?_, ?_⟩
  · intro hsent
    have hcs : canSendTwoFaNotification s now = true := by
      by_cases hc : canSendTwoFaNotification s now = true
      · exact hc
      · unfold sendTwoFaNotification at hsent
        rw [if_neg hc] at hsent
        simp at hsent
    simp only [canSendTwoFaNotification, hrow] at hcs
    cases hl : r.lastNotificationSent with
    | none => exact Or.inl rfl
    | some t =>
      simp only [hl, decide_eq_true_eq] at hcs
      exact Or.inr ⟨t, rfl, by omega⟩
  · intro hsent rr hmem hact
    have hco : canSendTwoFaNotification s now = true ∧ telegramOk = true := by
      by_cases hc : canSendTwoFaNotification s now = true
      · by_cases ho : telegramOk = true
        · exact ⟨hc, ho⟩
        · unfold sendTwoFaNotification at hsent
          rw [if_pos hc, if_neg ho] at hsent
          simp at hsent
      · unfold sendTwoFaNotification at hsent
        rw [if_neg hc] at hsent
        simp at hsent
    obtain ⟨hc, ho⟩ := hco
    unfold sendTwoFaNotification at hmem
    rw [if_pos hc, if_pos ho] at hmem
    simp only [markTwoFaNotificationSent, List.mem_map] at hmem
    obtain ⟨a, _, haeq⟩ := hmem
    by_cases hra : rowActive now a = true
    · rw [if_pos hra] at haeq
      rw [← haeq]
    · rw [if_neg hra] at haeq
      rw [← haeq] at hact
      exact absurd hact hra
  · intro t hl hle
    have hc : canSendTwoFaNotification s now = false := by
      simp only [canSendTwoFaNotification, hrow, hl, decide_eq_false_iff_not]
      omega
    unfold sendTwoFaNotification
    rw [hc]
    simp
  · intro hok
    unfold sendTwoFaNotification
    rw [hok]
    by_cases hc : canSendTwoFaNotification s now = true
    · rw [if_pos hc]
      simp
    · rw [if_neg hc]

/-- A pending row stamped 80000 seconds ago (less than 24 hours): the
limiter refuses a second message. -/
theorem claim3_witness :
    (sendTwoFaNotification
        ⟨none, none, [⟨"sc", "u", "c1", none, "refresh", 0, 100000, some 10000, none⟩]⟩
        90000 true).1 = false :=
  (claim3_notification_limiter _ 90000 true
      ⟨"sc", "u", "c1", none, "refresh", 0, 100000, some 10000, none⟩
      (by simp [getTotpSession, List.filter, rowActive])).2.2.1
    10000 rfl (by omega)

/-! ## C4 -/

/-- C4: after a wrong OTP code, complete_2fa_login rotates the cookies
and submit url of the pending row to the values Upstream re-emitted but
writes back the previously stored credential_id; the re-emitted
tf.credentialId (the Keycloak default) never reaches the row. -/
theorem claim4_wrong_code_preserves_credential
    (s : DBState) (now : Int) (r : TotpRow) (tf : TwoFactorData) (up : Upstream)
    (h : s.totpSessions = [r]) (ha : rowActive now r = true)
    (hsub : up.submitInteractive = .twoFactor tf) :
    (completeTwoFaLogin s now up).1 = .wrongCode tf ∧
    (completeTwoFaLogin s now up).2.totpSessions =
      [{ r with sessionCookies := tf.sessionCookies,
                otpActionUrl := tf.otpActionUrl,
                credentialId := r.credentialId }] := by
  have hg : getTotpSession s now = some r := getTotpSession_single s now r h ha
  constructor
  · simp [completeTwoFaLogin, hg, hsub]
  · simp [completeTwoFaLogin, hg, hsub, updateTotpSession, h, ha]

/-- A user-selected credential c1 survives a wrong-code rotation that
re-emits the default credential: the row keeps c1 with fresh cookies. -/
theorem claim4_witness :
    (completeTwoFaLogin
        ⟨none, none, [⟨"sc", "u", "c1", none, "login", 0, 300, none, none⟩]⟩
        10
        { approveCached := .error "", meInfoCached := .error "",
          login := .failure "", submitAuto := fun _ => .failure "",
          approveAfterAuto := .error "", meInfoAfterAuto := .error "",
          approveAfterLogin := .error "", meInfoAfterLogin := .error "",
          submitInteractive := .twoFactor ⟨"sc2", "u2", "default", none⟩,
          groupsResult := .error "", telegramOk := false }).2.totpSessions =
      [⟨"sc2", "u2", "c1", none, "login", 0, 300, none, none⟩] :=
  (claim4_wrong_code_preserves_credential _ 10
      ⟨"sc", "u", "c1", none, "login", 0, 300, none, none⟩
      ⟨"sc2", "u2", "default", none⟩ _ rfl (by decide) rfl).2

/-! ## C10 -/

/-- C10: extract_info is total over optional text: a Python None input
and an empty string both give the none/none record, any string whose
stripped length is below 5 gives the none/none record, and every input
yields a record carrying both the group and the subject field. -/
theorem claim10_extract_info_total :
    extractInfoOpt none = ⟨"none", "none"⟩ ∧
    extractInfoOpt (some "") = ⟨"none", "none"⟩ ∧
    (∀ s : String, (trimList s.data).length < 5 →
      extractInfoOpt (some s) = ⟨"none", "none"⟩) ∧
    (∀ t : Option String, ∃ g d, extractInfoOpt t = ⟨g, d⟩) := by
  refine ⟨rfl, rfl, ?_, ?_⟩
  · intro s h
    by_cases hs : s = ""
    · subst hs; rfl
    · show extractInfo s = ⟨"none", "none"⟩
      unfold extractInfo
      rw [if_neg hs, if_pos h]
  · intro t
    exact ⟨(extractInfoOpt t).group, (extractInfoOpt t).strok, rfl⟩

/-- A two-letter body strips to length 2 and is classified none/none. -/
theorem claim10_witness :
    extractInfoOpt (some " аб ") = ⟨"none", "none"⟩ :=
  claim10_extract_info_total.2.2.1 " аб " (by decide)

/-! ## Engine lemmas -/

/-- The discipline write touches only the discipline field. -/
lemma setDiscipline_frame (s : MarkingSession) (pr : ExtractResult) :
    (setDiscipline s pr).userResults = s.userResults ∧
    (setDiscipline s pr).remaining = s.remaining ∧
    (setDiscipline s pr).processed = s.processed ∧
    (setDiscipline s pr).status = s.status := by
  unfold setDiscipline
  split_ifs <;> exact ⟨rfl, rfl, rfl, rfl⟩

/-- The metadata writes touch only the group and discipline fields. -/
lemma setMeta_frame (s : MarkingSession) (pr : ExtractResult) :
    (setMeta s pr).userResults = s.userResults ∧
    (setMeta s pr).remaining = s.remaining ∧
    (setMeta s pr).processed = s.processed ∧
    (setMeta s pr).status = s.status := by
  unfold setMeta
  obtain ⟨h1, h2, h3, h4⟩ := setDiscipline_frame
    (if s.group = "" ∧ pr.group ≠ "none" then { s with group := pr.group } else s) pr
  rw [h1, h2, h3, h4]
  split_ifs <;> exact ⟨rfl, rfl, rfl, rfl⟩

/-- Each loop iteration appends exactly the record entryFor describes. -/
lemma markStep_userResults (fioMap : Int → Option String)
    (oracle : Int → Except String String) (s : MarkingSession) (uid : Int) :
    (markStep fioMap s uid (oracle uid)).userResults =
      s.userResults ++ [entryFor fioMap oracle uid] := by
  cases ho : oracle uid with
  | error e => simp [markStep, entryFor, ho]
  | ok raw =>
    by_cases h : (extractInfo raw).group = "none" ∧ (extractInfo raw).strok = "none"
    · simp [markStep, entryFor, ho, h]
    · simp [markStep, entryFor, ho, h, (setMeta_frame _ _).1]

/-- Each loop iteration erases the handled target from remaining. -/
lemma markStep_remaining (fioMap : Int → Option String)
    (oracle : Int → Except String String) (s : MarkingSession) (uid : Int) :
    (markStep fioMap s uid (oracle uid)).remaining = s.remaining.erase uid := by
  cases ho : oracle uid with
  | error e => simp [markStep, ho]
  | ok raw =>
    by_cases h : (extractInfo raw).group = "none" ∧ (extractInfo raw).strok = "none"
    · simp [markStep, ho, h]
    · simp [markStep, ho, h, (setMeta_frame _ _).2.1]

/-- Each loop iteration counts exactly one processed target. -/
lemma markStep_processed (fioMap : Int → Option String)
    (oracle : Int → Except String String) (s : MarkingSession) (uid : Int) :
    (markStep fioMap s uid (oracle uid)).processed = s.processed + 1 := by
  cases ho : oracle uid with
  | error e => simp [markStep, ho]
  | ok raw =>
    by_cases h : (extractInfo raw).group = "none" ∧ (extractInfo raw).strok = "none"
    · simp [markStep, ho, h]
    · simp [markStep, ho, h, (setMeta_frame _ _).2.2.1]

/-- The loop body never touches the status field. -/
lemma markStep_status (fioMap : Int → Option String)
    (oracle : Int → Except String String) (s : MarkingSession) (uid : Int) :
    (markStep fioMap s uid (oracle uid)).status = s.status := by
  cases ho : oracle uid with
  | error e => simp [markStep, ho]
  | ok raw =>
    by_cases h : (extractInfo raw).group = "none" ∧ (extractInfo raw).strok = "none"
    · simp [markStep, ho, h]
    · simp [markStep, ho, h, (setMeta_frame _ _).2.2.2]

/-- The loop appends one result record per target, in order. -/
lemma runTargets_userResults (fioMap : Int → Option String)
    (oracle : Int → Except String String) :
    ∀ (ts : List Int) (s : MarkingSession),
      (runTargets fioMap oracle s ts).userResults =
        s.userResults ++ ts.map (entryFor fioMap oracle)
  | [], s => by simp [runTargets]
  | t :: ts, s => by
    have hrec := runTargets_userResults fioMap oracle ts
      (markStep fioMap s t (oracle t))
    simp only [runTargets, List.foldl_cons] at hrec ⊢
    rw [hrec, markStep_userResults fioMap oracle s t]
    simp

/-- The loop erases every handled target from remaining, in order. -/
lemma runTargets_remaining (fioMap : Int → Option String)
    (oracle : Int → Except String String) :
    ∀ (ts : List Int) (s : MarkingSession),
      (runTargets fioMap oracle s ts).remaining =
        ts.foldl (fun rem u => rem.erase u) s.remaining
  | [], s => by simp [runTargets]
  | t :: ts, s => by
    have hrec := runTargets_remaining fioMap oracle ts
      (markStep fioMap s t (oracle t))
    simp only [runTargets, List.foldl_cons] at hrec ⊢
    rw [hrec, markStep_remaining fioMap oracle s t]

/-- The loop counts every target as processed. -/
lemma runTargets_processed (fioMap : Int → Option String)
    (oracle : Int → Except String String) :
    ∀ (ts : List Int) (s : MarkingSession),
      (runTargets fioMap oracle s ts).processed = s.processed + ts.length
  | [], s => by simp [runTargets]
  | t :: ts, s => by
    have hrec := runTargets_processed fioMap oracle ts
      (markStep fioMap s t (oracle t))
    simp only [runTargets, List.foldl_cons] at hrec ⊢
    rw [hrec, markStep_processed fioMap oracle s t, List.length_cons]
    omega

/-- The loop leaves the status field alone. -/
lemma runTargets_status (fioMap : Int → Option String)
    (oracle : Int → Except String String) :
    ∀ (ts : List Int) (s : MarkingSession),
      (runTargets fioMap oracle s ts).status = s.status
  | [], s => by simp [runTargets]
  | t :: ts, s => by
    have hrec := runTargets_status fioMap oracle ts
      (markStep fioMap s t (oracle t))
    simp only [runTargets, List.foldl_cons] at hrec ⊢
    rw [hrec, markStep_status fioMap oracle s t]

/-- Erasing a list of targets from itself leaves nothing: every dequeued
target disappears from remaining by the end of the pass. -/
lemma foldl_erase_self : ∀ l : List Int, l.foldl (fun rem u => rem.erase u) l = []
  | [] => rfl
  | h :: t => by
    have hh : (h :: t).erase h = t := by simp [List.erase_cons_head]
    simp only [List.foldl_cons, hh]
    exact foldl_erase_self t

/-- The full pass with a healthy store: every target of the copied
remaining list is handled, the remaining set drains, and the session
finishes in the completed state. -/
lemma process_none_shape (sess : MarkingSession)
    (oracle : Int → Except String String) (fioMap : Int → Option String) :
    (processMarkingSession sess oracle fioMap none).1.status = "completed" ∧
    (processMarkingSession sess oracle fioMap none).1.remaining = [] ∧
    (processMarkingSession sess oracle fioMap none).1.userResults =
      sess.userResults ++ sess.remaining.map (entryFor fioMap oracle) ∧
    (processMarkingSession sess oracle fioMap none).1.processed =
      sess.processed + sess.remaining.length := by
  have hrem : (runTargets fioMap oracle { sess with status := "processing" }
      sess.remaining).remaining = [] := by
    rw [runTargets_remaining]
    exact foldl_erase_self sess.remaining
  have hres := runTargets_userResults fioMap oracle sess.remaining
    { sess with status := "processing" }
  have hproc := runTargets_processed fioMap oracle sess.remaining
    { sess with status := "processing" }
  unfold processMarkingSession
  simp only []
  rw [show ({ sess with status := "processing" } : MarkingSession).remaining =
      sess.remaining from rfl] at *
  rw [if_pos (by rw [hrem]; rfl)]
  exact ⟨rfl, hrem, hres, hproc⟩

/-! ## C7 -/

/-- C7: with a healthy store, every per-target failure of the marking
loop is caught: the target is recorded as a failed result carrying the
message of the raised error, it leaves remaining, the pass continues
through the whole batch (all targets processed) and the session finishes
completed, never in the error state; only a failure outside the
per-target loop puts the session into the error state. -/
theorem claim7_per_target_errors_contained (sess : MarkingSession)
    (oracle : Int → Except String String) (fioMap : Int → Option String) :
    ((processMarkingSession sess oracle fioMap none).1.status = "completed" ∧
     (processMarkingSession sess oracle fioMap none).1.remaining = [] ∧
     (processMarkingSession sess oracle fioMap none).1.processed =
       sess.processed + sess.remaining.length) ∧
    (∀ uid, uid ∈ sess.remaining →
      entryFor fioMap oracle uid ∈
        (processMarkingSession sess oracle fioMap none).1.userResults) ∧
    (∀ uid e, oracle uid = .error e →
      entryFor fioMap oracle uid = ⟨uid, fioOf fioMap uid, false, some e⟩) ∧
    (∀ eMsg, (processMarkingSession sess oracle fioMap (some eMsg)).1.status = "error" ∧
      (processMarkingSession sess oracle fioMap (some eMsg)).1.error = some eMsg) := by
  obtain ⟨h1, h2, h3, h4⟩ := process_none_shape sess oracle fioMap
  refine ⟨⟨h1, h2, h4⟩, ?_, ?_, ?_⟩
  · intro uid hmem
    rw [h3]
    exact List.mem_append_right _ (List.mem_map_of_mem _ hmem)
  · intro uid e he
    simp [entryFor, he]
  · intro eMsg
    exact ⟨rfl, rfl⟩

/-- A two-target batch where the first target raises a 2FA refusal: the
refusal is recorded as that target's failed result and the batch still
completes. -/
def c7session : MarkingSession :=
  { ownerId := 1, token := "T1", status := "starting", total := 2, processed := 0,
    successful := 0, failed := 0, results := [], userResults := [],
    remaining := [10, 20], completed := false, error := none,
    discipline := "", group := "" }

/-- The outcome oracle of the C7 scenario: target 10 raises, target 20
returns a marked response. -/
def c7oracle : Int → Except String String := fun uid =>
  if uid = 10 then .error "Ошибка при отметке посещаемости: Требуется ввод TOTP кода"
  else .ok "А-20 | Алгебра и геометрия | ПР | БСБО-01-23"

theorem claim7_witness :
    entryFor (fun _ => none) c7oracle 10 ∈
      (processMarkingSession c7session c7oracle (fun _ => none) none).1.userResults :=
  (claim7_per_target_errors_contained c7session c7oracle (fun _ => none)).2.1 10
    (by decide)

/-! ## C6 -/

/-- A finished single-target session with one successful result. -/
def c6session : MarkingSession :=
  { ownerId := 1, token := "T1", status := "completed", total := 1, processed := 1,
    successful := 1, failed := 0,
    results := [(10, ⟨"БСБО-31-24", "Математический анализ"⟩)],
    userResults := [⟨10, "Иванов Иван", true, none⟩],
    remaining := [], completed := true, error := none,
    discipline := "Математический анализ", group := "БСБО-31-24" }

/-- C6 counterexample: continue_marking on a completed session is not a
no-op: the stored token is replaced and the success notification is
broadcast again to the previously successful target (the returned id
list [10] is the set send_marking_notifications posts to). -/
theorem claim6_counterexample :
    continueMarking c6session 1 "T2" (fun _ => .error "нет цели") (fun _ => none) none =
      .ok ({ c6session with token := "T2" }, [10]) := by
  rfl

/-- C6 amended: continue_marking by the owner of a session whose
remaining set is empty leaves the counters, the results and the recorded
outcomes unchanged and returns the session to the completed state, but it
replaces the token, and it re-runs the finishing broadcast, which
re-notifies every previously successful target whenever the session knows
its discipline. -/
theorem claim6_amended_continue_completed (sess : MarkingSession) (newToken : String)
    (oracle : Int → Except String String) (fioMap : Int → Option String)
    (hr : sess.remaining = []) :
    continueMarking sess sess.ownerId newToken oracle fioMap none =
      .ok ({ sess with token := newToken, status := "completed",
                       error := none, completed := true },
        if ((sess.userResults.filter (fun r => r.success)).map (fun r => r.tgId)).isEmpty
        then []
        else if sess.discipline = "" then []
        else (sess.userResults.filter (fun r => r.success)).map (fun r => r.tgId)) := by
  unfold continueMarking
  rw [if_neg (by simp)]
  unfold processMarkingSession runTargets
  simp [hr]

/-- Continuing the finished C6 session through the amended statement:
the broadcast list is again the previously successful target. -/
theorem claim6_witness :
    continueMarking c6session 1 "T3" (fun _ => .error "нет цели") (fun _ => none) none =
      .ok ({ c6session with token := "T3", status := "completed",
                            error := none, completed := true }, [10]) :=
  claim6_amended_continue_completed c6session "T3" (fun _ => .error "нет цели")
    (fun _ => none) rfl

/-! ## C8: lemmas about the group search and the candidate maximum -/

/-- Past the end of the text no position can match the group pattern. -/
lemma groupAt_false_of_ge (cs : List Char) (i : Nat) (h : cs.length ≤ i) :
    groupAt cs i = false := by
  have hd : cs.getD i '\x00' = '\x00' := List.getD_eq_default cs '\x00' h
  unfold groupAt
  rw [hd]
  rfl

/-- The scan returns the position of the first match. -/
lemma searchGroupAux_finds (cs : List Char) (i : Nat) (hi : groupAt cs i = true) :
    ∀ (fuel k : Nat), k ≤ i → i < k + fuel →
      (∀ j, k ≤ j → j < i → groupAt cs j = false) →
      searchGroupAux cs fuel k = some i
  | 0, _, hk, hlt, _ => absurd hlt (by omega)
  | fuel + 1, k, hk, hlt, hall => by
    have hilen : i < cs.length := by
      by_contra hc
      rw [groupAt_false_of_ge cs i (by omega)] at hi
      exact Bool.false_ne_true hi
    unfold searchGroupAux
    rw [if_neg (by omega)]
    by_cases hki : k = i
    · subst hki
      rw [if_pos hi]
    · have hkf : groupAt cs k = false := hall k (Nat.le_refl k) (by omega)
      rw [if_neg (by simp [hkf])]
      exact searchGroupAux_finds cs i hi fuel (k + 1) (by omega) (by omega)
        (fun j hj1 hj2 => hall j (by omega) hj2)

/-- With no matching position the scan returns none. -/
lemma searchGroupAux_none (cs : List Char) (hall : ∀ j, groupAt cs j = false) :
    ∀ (fuel k : Nat), searchGroupAux cs fuel k = none
  | 0, _ => rfl
  | fuel + 1, k => by
    unfold searchGroupAux
    by_cases hlen : cs.length ≤ k
    · rw [if_pos hlen]
    · rw [if_neg hlen, if_neg (by simp [hall k])]
      exact searchGroupAux_none cs hall fuel (k + 1)

/-- The fold of the Python max call stays inside the candidate pool. -/
lemma foldl_max_mem : ∀ (t : List (List Char)) (b : List Char),
    t.foldl (fun acc p => if acc.length < p.length then p else acc) b ∈ b :: t
  | [], b => by simp
  | h :: t, b => by
    simp only [List.foldl_cons]
    have hrec := foldl_max_mem t (if b.length < h.length then h else b)
    rcases List.mem_cons.mp hrec with hcase | hcase
    · rw [hcase]
      split_ifs
      · simp
      · simp
    · simp [hcase]

/-- The fold of the Python max call dominates every candidate by length. -/
lemma foldl_max_ge : ∀ (t : List (List Char)) (b x : List Char), x ∈ b :: t →
    x.length ≤ (t.foldl (fun acc p => if acc.length < p.length then p else acc) b).length
  | [], b, x, hx => by
    simp only [List.foldl_nil]
    have : x = b := by simpa using hx
    rw [this]
  | h :: t, b, x, hx => by
    simp only [List.foldl_cons]
    rcases List.mem_cons.mp hx with h1 | h1
    · subst h1
      have hb : x.length ≤ (if x.length < h.length then h else x).length := by
        split_ifs with hs
        · omega
        · exact Nat.le_refl _
      exact le_trans hb (foldl_max_ge t _ _ (List.mem_cons_self _ _))
    · rcases List.mem_cons.mp h1 with h2 | h2
      · subst h2
        have hb : x.length ≤ (if b.length < x.length then x else b).length := by
          split_ifs with hs
          · exact Nat.le_refl _
          · omega
        exact le_trans hb (foldl_max_ge t _ _ (List.mem_cons_self _ _))
      · exact foldl_max_ge t _ _ (List.mem_cons.mpr (Or.inr h2))

/-- Python max over a non-empty pool: a member of maximal length. -/
lemma maxByLen_spec (l : List (List Char)) (hl : l ≠ []) :
    maxByLen l ∈ l ∧ ∀ p ∈ l, p.length ≤ (maxByLen l).length := by
  cases l with
  | nil => exact absurd rfl hl
  | cons h t => exact ⟨foldl_max_mem t h, fun p hp => foldl_max_ge t h p hp⟩

/-- The branch extract_info takes on a normal new-format body. -/
lemma extractInfo_sep (t : String) (ht : t ≠ "")
    (hlen : ¬(trimList t.data).length < 5)
    (hsep : containsSeq " | ".data t.data = true) :
    extractInfo t = ⟨extractGroup t.data, extractDisciplineNew t.data⟩ := by
  unfold extractInfo
  rw [if_neg ht, if_neg hlen, if_pos hsep]

/-! ## C8 -/

/-- C8: on a non-trivial new-format body, extract_info is the
deterministic extractor the spec describes: its group is the substring at
the first position matching the bounded group pattern (none when no
position matches), its subject is a discipline candidate of maximal
length (a token that survives the group, short-token, season and
person-name filters; none when none survives), and when a response parses
to the none/none record the engine books the target as failed with the
QR-expired message and still completes the batch. -/
theorem claim8_extractor_shape (t : String) (ht : t ≠ "")
    (hlen : ¬(trimList t.data).length < 5)
    (hsep : containsSeq " | ".data t.data = true) :
    (∀ i, groupAt t.data i = true → (∀ j, j < i → groupAt t.data j = false) →
      (extractInfo t).group = ((t.data.drop i).take 10).asString) ∧
    ((∀ i, groupAt t.data i = false) → (extractInfo t).group = "none") ∧
    (disciplineCands t.data = [] → (extractInfo t).strok = "none") ∧
    (disciplineCands t.data ≠ [] →
      ∃ w ∈ disciplineCands t.data, (extractInfo t).strok = w.asString ∧
        ∀ p ∈ disciplineCands t.data, p.length ≤ w.length) ∧
    (∀ (sess : MarkingSession) (oracle : Int → Except String String)
        (fioMap : Int → Option String) (uid : Int) (raw : String),
      uid ∈ sess.remaining → oracle uid = .ok raw →
      extractInfo raw = ⟨"none", "none"⟩ →
      (⟨uid, fioOf fioMap uid, false, some "QR код истёк или неверный ответ"⟩ : UserResult) ∈
        (processMarkingSession sess oracle fioMap none).1.userResults ∧
      (processMarkingSession sess oracle fioMap none).1.status = "completed") := by
  refine ⟨?_, ?_, ?_, ?_, ?_⟩
  · intro i hi hfirst
    rw [extractInfo_sep t ht hlen hsep]
    show extractGroup t.data = _
    unfold extractGroup searchGroupFrom
    have hilen : i < t.data.length := by
      by_contra hc
      rw [groupAt_false_of_ge t.data i (by omega)] at hi
      exact Bool.false_ne_true hi
    rw [searchGroupAux_finds t.data i hi (t.data.length + 1) 0 (Nat.zero_le i)
      (by omega) (fun j _ hj2 => hfirst j hj2)]
  · intro hall
    rw [extractInfo_sep t ht hlen hsep]
    show extractGroup t.data = _
    unfold extractGroup searchGroupFrom
    rw [searchGroupAux_none t.data hall (t.data.length + 1) 0]
  · intro hc
    rw [extractInfo_sep t ht hlen hsep]
    show extractDisciplineNew t.data = _
    unfold extractDisciplineNew
    rw [hc]
  · intro hne
    rcases hcs : disciplineCands t.data with _ | ⟨h, tl⟩
    · exact absurd hcs hne
    · have hspec := maxByLen_spec (h :: tl) (by simp)
      refine ⟨maxByLen (h :: tl), ?_, ?_, ?_⟩
      · exact hspec.1
      · rw [extractInfo_sep t ht hlen hsep]
        show extractDisciplineNew t.data = _
        unfold extractDisciplineNew
        rw [hcs]
      · intro p hp
        exact hspec.2 p hp
  · intro sess oracle fioMap uid raw hmem ho hext
    obtain ⟨h1, _, h3, _⟩ := process_none_shape sess oracle fioMap
    refine ⟨?_, h1⟩
    rw [h3]
    refine List.mem_append_right _ ?_
    have hentry : entryFor fioMap oracle uid =
        ⟨uid, fioOf fioMap uid, false, some "QR код истёк или неверный ответ"⟩ := by
      simp [entryFor, ho, hext]
    rw [← hentry]
    exact List.mem_map_of_mem _ hmem

/-- The running example: the group pattern first matches at offset 48 and
the longest surviving token is the discipline. -/
def c8text : String := "А-20 | Алгебра и геометрия | ПР | Иванов Иван | БСБО-01-23"

theorem claim8_witness :
    (extractInfo c8text).group = ((c8text.data.drop 48).take 10).asString :=
  (claim8_extractor_shape c8text (by decide) (by decide) (by decide)).1 48
    (by decide) (by decide)

/-! ## C1 -/

/-- Once a user row exists, every path of the rebuild half of
self_approve has already invoked get_cookies. -/
lemma selfApproveRefresh_called (s : DBState) (now : Int) (ua : Option String)
    (up : Upstream) (u : UserRow) (hu : s.user = some u) :
    (selfApproveRefresh s now ua up).calledGetCookies = true := by
  unfold selfApproveRefresh
  simp only [hu]
  split
  · split <;> rfl
  · split
    · split <;> rfl
    · rfl
  · rfl

/-- The rebuild half of self_approve raises the 2FA error only when
get_cookies itself came back with a challenge. -/
lemma selfApproveRefresh_twofa_source (s : DBState) (now : Int) (ua : Option String)
    (up : Upstream) (u : UserRow) (hu : s.user = some u)
    (hres : (selfApproveRefresh s now ua up).result = .twoFactorRequired "refresh") :
    ∃ tf, up.login = .twoFactor tf := by
  unfold selfApproveRefresh at hres
  simp only [hu] at hres
  cases hl : up.login with
  | success c =>
    rw [hl] at hres
    cases hap : up.approveAfterLogin <;> rw [hap] at hres <;> simp at hres
  | twoFactor tf => exact ⟨tf, rfl⟩
  | failure e =>
    rw [hl] at hres
    simp at hres

/-- Once a user row exists, every path of the rebuild half of
get_us_info has already invoked get_cookies. -/
lemma getUsInfoRefresh_called (s : DBState) (now : Int) (ua : Option String)
    (nb : Bool) (up : Upstream) (u : UserRow) (hu : s.user = some u) :
    (getUsInfoRefresh s now ua nb up).calledGetCookies = true := by
  unfold getUsInfoRefresh
  simp only [hu]
  split
  · split
    · split <;> rfl
    · rfl
  · split
    · split
      · split <;> rfl
      · rfl
    · rfl
  · rfl

/-- A user with a live pending challenge (created at 0, expiring at 300,
probed at time 100), empty cookie cache, no stored seed. -/
def c1row : TotpRow :=
  ⟨"SC", "U", "c1", none, "refresh", 0, 300, none, none⟩

def c1db : DBState :=
  { user := some ⟨"a@b", "p", none, none, none⟩,
    cookies := none,
    totpSessions := [c1row] }

/-- Upstream answers the fresh SSO with another TOTP challenge. -/
def c1up : Upstream :=
  { approveCached := .error "нет куки", meInfoCached := .error "нет куки",
    login := .twoFactor ⟨"SC2", "U2", "cdef", none⟩,
    submitAuto := fun _ => .failure "нет секрета",
    approveAfterAuto := .error "", meInfoAfterAuto := .error "",
    approveAfterLogin := .error "", meInfoAfterLogin := .error "",
    submitInteractive := .failure "", groupsResult := .error "",
    telegramOk := true }

/-- C1 counterexample: with a non-expired PendingChallenge on file and no
cached cookies, self_approve still invokes get_cookies (a fresh SSO
attempt), contradicting the claimed short-circuit. -/
theorem claim1_counterexample :
    getTotpSession c1db 100 = some c1row ∧ c1db.cookies = none ∧
    (selfApprove c1db 100 none c1up).calledGetCookies = true :=
  ⟨rfl, rfl, rfl⟩

/-- C1 amended: when the cached cookies are absent or dead, self_approve
and get_us_info issue a fresh SSO attempt (get_cookies is always called)
even though a non-expired PendingChallenge exists; the 2FA error is
raised only from the outcome of that fresh attempt, not from the stored
challenge. -/
theorem claim1_amended_no_short_circuit (s : DBState) (now : Int)
    (ua : Option String) (notifyFlag : Bool) (up : Upstream) (r : TotpRow) (u : UserRow)
    (hpending : getTotpSession s now = some r) (hu : s.user = some u) :
    ((s.cookies = none ∨ ∃ e, up.approveCached = .error e ∧ contains401 e = true) →
      (selfApprove s now ua up).calledGetCookies = true ∧
      ((selfApprove s now ua up).result = .twoFactorRequired "refresh" →
        ∃ tf, up.login = .twoFactor tf)) ∧
    ((s.cookies = none ∨
        ∃ e, up.meInfoCached = .error e ∨
          (up.meInfoCached = .ok e ∧ (trimList e.data).isEmpty = true)) →
      (getUsInfo s now ua notifyFlag up).calledGetCookies = true) := by
  constructor
  · intro hdead
    have hred : selfApprove s now ua up = selfApproveRefresh s now ua up := by
      rcases hdead with hnone | ⟨e, he, h401⟩
      · unfold selfApprove
        rw [hnone]
      · unfold selfApprove
        cases hck : s.cookies with
        | none => rfl
        | some ck =>
          simp only [he]
          rw [if_pos h401]
    rw [hred]
    exact ⟨selfApproveRefresh_called s now ua up u hu,
      selfApproveRefresh_twofa_source s now ua up u hu⟩
  · intro hdead
    have hred : getUsInfo s now ua notifyFlag up =
        getUsInfoRefresh s now ua notifyFlag up := by
      rcases hdead with hnone | ⟨e, he⟩
      · unfold getUsInfo
        rw [hnone]
      · rcases he with he | ⟨he, hempty⟩
        · unfold getUsInfo
          cases hck : s.cookies with
          | none => rfl
          | some ck => simp only [he]
        · unfold getUsInfo
          cases hck : s.cookies with
          | none => rfl
          | some ck =>
            simp only [he]
            rw [if_pos hempty]
    rw [hred]
    exact getUsInfoRefresh_called s now ua notifyFlag up u hu

/-- The amended statement at the counterexample state: the SSO attempt is
issued for both operations. -/
theorem claim1_witness :
    (selfApprove c1db 100 none c1up).calledGetCookies = true ∧
    (getUsInfo c1db 100 none false c1up).calledGetCookies = true :=
  ⟨((claim1_amended_no_short_circuit c1db 100 none false c1up c1row
      ⟨"a@b", "p", none, none, none⟩ rfl rfl).1 (Or.inl rfl)).1,
    (claim1_amended_no_short_circuit c1db 100 none false c1up c1row
      ⟨"a@b", "p", none, none, none⟩ rfl rfl).2 (Or.inl rfl)⟩

/-! ## C5 -/

/-- A user holding a TOTP seed but no stored credential_id, with an empty
cookie cache. -/
def c5db : DBState :=
  { user := some ⟨"a@b", "p", none, some "JBSWY3DPEHPK3PXP", none⟩,
    cookies := none,
    totpSessions := [] }

/-- Upstream raises a TOTP challenge with default credential c1; the
automatic code submission succeeds and the retried approve returns a
marked response. -/
def c5up : Upstream :=
  { approveCached := .error "", meInfoCached := .error "",
    login := .twoFactor ⟨"SC", "U", "c1", none⟩,
    submitAuto := fun _ => .success "AUTOCOOKIES",
    approveAfterAuto := .ok "А-20 | Алгебра и геометрия | БСБО-01-23",
    meInfoAfterAuto := .error "",
    approveAfterLogin := .error "", meInfoAfterLogin := .error "",
    submitInteractive := .failure "", groupsResult := .error "",
    telegramOk := true }

/-- C5 counterexample: the automatic 2FA succeeds with credential c1 and
the broker proceeds, but no totp_credential_id is stored afterwards —
the claimed write of the successful credential does not happen. -/
theorem claim5_counterexample :
    (selfApprove c5db 0 none c5up).result =
      .ok "А-20 | Алгебра и геометрия | БСБО-01-23" ∧
    ((selfApprove c5db 0 none c5up).db.user.bind (fun u => u.totpCredentialId)) = none :=
  ⟨rfl, rfl⟩

/-- C5 amended: on an auto-2FA success the broker proceeds as if the
primary login had succeeded — the fresh cookies are cached and the
operation returns its result — but try_auto_2fa stores nothing: the users
row, including totp_credential_id, is left exactly as it was (the
credential is persisted only by the interactive complete_2fa_login path). -/
theorem claim5_amended_auto_success_no_store (s : DBState) (now : Int)
    (ua : Option String) (up : Upstream) (u : UserRow) (tf : TwoFactorData)
    (c v sec : String)
    (hu : s.user = some u) (hsec : u.totpSecret = some sec)
    (hck : s.cookies = none) (hlogin : up.login = .twoFactor tf)
    (hsub : up.submitAuto (pyOrStr u.totpCredentialId tf.credentialId) = .success c)
    (hap : up.approveAfterAuto = .ok v) :
    selfApprove s now ua up = ⟨.ok v, createCookie s c, true, false⟩ ∧
    (createCookie s c).user = s.user := by
  constructor
  · unfold selfApprove
    rw [hck]
    unfold selfApproveRefresh
    simp only [hu, hlogin]
    have hauto : tryAutoTwoFa s up tf = some c := by
      unfold tryAutoTwoFa
      simp only [hu, hsec, hsub]
    rw [hauto]
    simp only [hap]
  · rfl

/-- The amended statement at the counterexample state: the run caches the
auto cookies, returns the approve result, and leaves the users row
untouched. -/
theorem claim5_witness :
    selfApprove c5db 0 none c5up =
      ⟨.ok "А-20 | Алгебра и геометрия | БСБО-01-23",
        createCookie c5db "AUTOCOOKIES", true, false⟩ :=
  (claim5_amended_auto_success_no_store c5db 0 none c5up
      ⟨"a@b", "p", none, some "JBSWY3DPEHPK3PXP", none⟩
      ⟨"SC", "U", "c1", none⟩ "AUTOCOOKIES"
      "А-20 | Алгебра и геометрия | БСБО-01-23" "JBSWY3DPEHPK3PXP"
      rfl rfl rfl rfl rfl rfl).1

/-! ## C9 -/

/-- String concatenation concatenates the character lists. -/
lemma strDataAppend (s t : String) : (s ++ t).data = s.data ++ t.data := by
  cases s
  cases t
  rfl

/-- Substring containment is preserved by extending the text on the left. -/
lemma containsSeq_append_left (needle : List Char) :
    ∀ (xs zs : List Char), containsSeq needle zs = true →
      containsSeq needle (xs ++ zs) = true
  | [], _, h => h
  | x :: xs, zs, h => by
    have hrec := containsSeq_append_left needle xs zs h
    show (needle.isPrefixOf (x :: (xs ++ zs)) || containsSeq needle (xs ++ zs)) = true
    rw [hrec]
    simp

/-- When no entry matches the allow-list the scan finds nothing. -/
lemma findMirea_none (entries : List (String × String))
    (h : ∀ e ∈ entries, isMireaTotp e.2 = false) : findMirea entries = none := by
  induction entries with
  | nil => rfl
  | cons e rest ih =>
    obtain ⟨sec, iss⟩ := e
    have he : isMireaTotp iss = false := h (sec, iss) (List.mem_cons_self _ _)
    unfold findMirea
    rw [if_neg (by simp [he])]
    exact ih (fun x hx => h x (List.mem_cons_of_mem _ hx))

/-- The wrong-issuer message always carries the word the webhook keys on. -/
lemma wrongIssuer_marked (n : Nat) :
    containsSeq "ключей".data (wrongIssuerText n).data = true := by
  unfold wrongIssuerText
  rw [strDataAppend, strDataAppend]
  exact containsSeq_append_left _ _ _ (by decide)

/-- The wrong-issuer message is never the empty (falsy) string. -/
lemma wrongIssuer_ne_empty (n : Nat) : wrongIssuerText n ≠ "" := by
  unfold wrongIssuerText
  intro h
  have hdata := congrArg String.data h
  rw [strDataAppend, strDataAppend] at hdata
  have hne : "Найдено ".data ≠ [] := by decide
  simp only [List.append_eq_nil] at hdata
  exact hne hdata.1.1

/-- C9 corrected: a multi-entry payload with no allow-listed issuer comes
back as the wrong-issuer error and the webhook stores nothing; a lone
entry is returned by the parser even under an unknown issuer, but the
webhook then stores the secret only when the issuer matches the
allow-list — an unknown-issuer single entry is answered with the
not-from-MIREA message instead of reaching set_totp_secret. -/
theorem claim9_issuer_gate (entries : List (String × String)) (sec iss : String)
    (hlen : 2 ≤ entries.length)
    (hnone : ∀ e ∈ entries, isMireaTotp e.2 = false) :
    (selectMigrationEntry entries =
        (none, some (wrongIssuerText entries.length)) ∧
      webhookPhotoAction none (some (wrongIssuerText entries.length)) =
        .wrongIssuerMsg (wrongIssuerText entries.length)) ∧
    selectMigrationEntry [(sec, iss)] = (some sec, some iss) ∧
    (webhookPhotoAction (some sec) (some iss) = .stored sec ↔
      sec ≠ "" ∧ isMireaTotp iss = true) ∧
    (sec ≠ "" → isMireaTotp iss = false →
      webhookPhotoAction (some sec) (some iss) = .notMireaMsg) := by
  refine ⟨⟨?_, ?_⟩, ?_, ?_, ?_⟩
  · unfold selectMigrationEntry
    rw [findMirea_none entries hnone]
    rcases entries with _ | ⟨e1, _ | ⟨e2, rest⟩⟩
    · simp at hlen
    · simp at hlen
    · rfl
  · have hm := wrongIssuer_marked entries.length
    have hne := wrongIssuer_ne_empty entries.length
    unfold webhookPhotoAction
    simp [optStrTruthy, hne, hm]
  · unfold selectMigrationEntry findMirea
    by_cases hm : isMireaTotp iss = true
    · rw [if_pos hm]
    · rw [if_neg hm]
      rfl
  · constructor
    · intro hact
      unfold webhookPhotoAction at hact
      by_cases hsec : sec = ""
      · rw [if_neg (by simp [optStrTruthy, hsec])] at hact
        split at hact <;> (try split at hact) <;> simp at hact
      · rw [if_pos (by simp [optStrTruthy, hsec])] at hact
        by_cases hm : isMireaTotp ((some iss).getD "") = true
        · exact ⟨hsec, by simpa using hm⟩
        · rw [if_neg hm] at hact
          simp at hact
    · rintro ⟨hsec, hm⟩
      unfold webhookPhotoAction
      rw [if_pos (by simp [optStrTruthy, hsec]), if_pos (by simpa using hm)]
      rfl
  · intro hsec hm
    unfold webhookPhotoAction
    rw [if_pos (by simp [optStrTruthy, hsec]), if_neg (by simp [hm])]

/-- C9 counterexample: a single-entry export with issuer GitHub: the
parser passes it through, but the webhook answers not-from-MIREA and
never reaches set_totp_secret, against the claimed unconditional store. -/
theorem claim9_counterexample :
    selectMigrationEntry [("SECRET123", "GitHub")] = (some "SECRET123", some "GitHub") ∧
    isMireaTotp "GitHub" = false ∧
    webhookPhotoAction (some "SECRET123") (some "GitHub") = .notMireaMsg := by
  refine ⟨rfl, by decide, ?_⟩
  rfl

/-- The amended statement on a concrete two-entry payload with unknown
issuers: the wrong-issuer error is produced. -/
theorem claim9_witness :
    selectMigrationEntry [("s1", "GitHub"), ("s2", "Google")] =
      (none, some (wrongIssuerText 2)) :=
  ((claim9_issuer_gate [("s1", "GitHub"), ("s2", "Google")] "s" "i"
      (by decide) (by decide)).1).1

end LavkaSpec
